import Mathlib

set_option maxHeartbeats 1000000

namespace PoiesisMcp

/-- Task state enumeration, from src/poiesis_mcp/tes/models.py (class TesState).
The wire representation is the plain string carried in TesState.value. -/
inductive TesState where
  | UNKNOWN
  | QUEUED
  | INITIALIZING
  | RUNNING
  | PAUSED
  | COMPLETE
  | EXECUTOR_ERROR
  | SYSTEM_ERROR
  | CANCELED
  | PREEMPTED
  | CANCELING
deriving DecidableEq

/-- The string value of each TesState member (the .value attribute of the Python enum). -/
def TesState.value : TesState → String
  | .UNKNOWN => "UNKNOWN"
  | .QUEUED => "QUEUED"
  | .INITIALIZING => "INITIALIZING"
  | .RUNNING => "RUNNING"
  | .PAUSED => "PAUSED"
  | .COMPLETE => "COMPLETE"
  | .EXECUTOR_ERROR => "EXECUTOR_ERROR"
  | .SYSTEM_ERROR => "SYSTEM_ERROR"
  | .CANCELED => "CANCELED"
  | .PREEMPTED => "PREEMPTED"
  | .CANCELING => "CANCELING"

/-- Simplified task status enumeration, from src/poiesis_mcp/tools/wait.py (class TaskStatus). -/
inductive TaskStatus where
  | COMPLETED_SUCCESS
  | COMPLETED_FAILED
  | STILL_RUNNING
  | STILL_RUNNING_TIMEOUT
  | CANCELED
  | ERROR_STATE
  | UNKNOWN_STATE
deriving DecidableEq

/-- The string value of each TaskStatus member. -/
def TaskStatus.value : TaskStatus → String
  | .COMPLETED_SUCCESS => "completed_success"
  | .COMPLETED_FAILED => "completed_failed"
  | .STILL_RUNNING => "still_running"
  | .STILL_RUNNING_TIMEOUT => "still_running_timeout"
  | .CANCELED => "canceled"
  | .ERROR_STATE => "error_state"
  | .UNKNOWN_STATE => "unknown_state"

/-- Recommended wait strategies, from src/poiesis_mcp/tools/wait.py (class WaitStrategy). -/
inductive WaitStrategy where
  | CONTINUE_WAITING
  | CHECK_LOGS
  | NOTIFY_USER
  | SUCCESS_PROCEED
deriving DecidableEq

/-- The string value of each WaitStrategy member. -/
def WaitStrategy.value : WaitStrategy → String
  | .CONTINUE_WAITING => "continue_waiting"
  | .CHECK_LOGS => "check_logs"
  | .NOTIFY_USER => "notify_user"
  | .SUCCESS_PROCEED => "success_proceed"

/-- View enumeration, from src/poiesis_mcp/tes/models.py (class TesView). -/
inductive TesView where
  | BASIC
  | FULL
  | MINIMAL
deriving DecidableEq

/-- The string value of each TesView member. -/
def TesView.value : TesView → String
  | .BASIC => "BASIC"
  | .FULL => "FULL"
  | .MINIMAL => "MINIMAL"

/-- Embedding of _analyze_task_status from src/poiesis_mcp/tools/wait.py.
The raw state arrives as an arbitrary string and is compared against the
TesState member values; the elapsed duration is a Python float, modelled as
a rational number; max_wait_minutes is a Python int, modelled as an integer.
The function is total by construction, as in the source, which ends in an
unconditional fallback return of UNKNOWN_STATE. -/
def analyze_task_status (state : String) (duration_minutes : ℚ)
    (max_wait_minutes : ℤ) : TaskStatus :=
  if state = TesState.COMPLETE.value then .COMPLETED_SUCCESS
  else if state ∈ [TesState.EXECUTOR_ERROR.value, TesState.SYSTEM_ERROR.value] then
    .COMPLETED_FAILED
  else if state = TesState.CANCELED.value then .CANCELED
  else if state ∈ [TesState.RUNNING.value, TesState.QUEUED.value,
      TesState.INITIALIZING.value] then
    if duration_minutes ≥ (max_wait_minutes : ℚ) then .STILL_RUNNING_TIMEOUT
    else .STILL_RUNNING
  else if state ∈ [TesState.PAUSED.value, TesState.PREEMPTED.value] then .ERROR_STATE
  else .UNKNOWN_STATE

/-- Embedding of _calculate_adaptive_interval from src/poiesis_mcp/tools/wait.py.
base_interval stands for constants.TASK_POLL_INTERVAL (environment-sourced int),
passed here as an explicit parameter. Python floor division a // 2 is Int.fdiv. -/
def calculate_adaptive_interval (state : String) (duration_minutes : ℚ)
    (base_interval : ℤ) : ℤ :=
  if duration_minutes < 1 then max 2 (Int.fdiv base_interval 2)
  else if state ∈ [TesState.RUNNING.value, TesState.INITIALIZING.value] then
    if duration_minutes < 5 then base_interval
    else if duration_minutes < 15 then base_interval * 2
    else base_interval * 3
  else if state = TesState.QUEUED.value then base_interval
  else if state ∈ [TesState.UNKNOWN.value, TesState.PAUSED.value] then
    max 3 (Int.fdiv base_interval 2)
  else base_interval

/-- Spec-side restatement of the status classifier, transcribed from the case
analysis in spec section 4.2 (pure function classify): COMPLETE to
completed_success; EXECUTOR_ERROR or SYSTEM_ERROR to completed_failed;
CANCELED to canceled; RUNNING, QUEUED or INITIALIZING to still_running when
elapsed is below the threshold and still_running_timeout when elapsed is at
or above it; PAUSED or PREEMPTED to error_state; everything else to
unknown_state. Used only to compare against the source-derived
analyze_task_status in the refinement claim C1. -/
def classify (state : String) (elapsed_minutes : ℚ) (max_wait_minutes : ℤ) : TaskStatus :=
  if state = "COMPLETE" then .COMPLETED_SUCCESS
  else if state = "EXECUTOR_ERROR" ∨ state = "SYSTEM_ERROR" then .COMPLETED_FAILED
  else if state = "CANCELED" then .CANCELED
  else if state = "RUNNING" ∨ state = "QUEUED" ∨ state = "INITIALIZING" then
    if elapsed_minutes < (max_wait_minutes : ℚ) then .STILL_RUNNING
    else .STILL_RUNNING_TIMEOUT
  else if state = "PAUSED" ∨ state = "PREEMPTED" then .ERROR_STATE
  else .UNKNOWN_STATE

/-- Spec-side restatement of the adaptive interval function, transcribed from
spec section 4.2 (pure function adaptive_interval): below one minute the fast
initial poll max(2, base div 2) regardless of state; then tiered backoff for
RUNNING or INITIALIZING; base for QUEUED; max(3, base div 2) for UNKNOWN or
PAUSED; base otherwise. Used only to compare against the source-derived
calculate_adaptive_interval in the refinement claim C2. -/
def adaptive_interval (state : String) (elapsed_minutes : ℚ) (base_interval : ℤ) : ℤ :=
  if elapsed_minutes < 1 then max 2 (Int.fdiv base_interval 2)
  else if state = "RUNNING" ∨ state = "INITIALIZING" then
    if elapsed_minutes < 5 then base_interval
    else if elapsed_minutes < 15 then base_interval * 2
    else base_interval * 3
  else if state = "QUEUED" then base_interval
  else if state = "UNKNOWN" ∨ state = "PAUSED" then max 3 (Int.fdiv base_interval 2)
  else base_interval

/-- ASCII whitespace test used to model Python str.strip (the source only ever
strips plain ASCII identifiers and views). -/
def isPySpace (c : Char) : Bool :=
  c == ' ' || c == '\t' || c == '\n' || c == '\r' || c == '\x0b' || c == '\x0c'

/-- Model of Python str.strip(): remove leading and trailing whitespace. -/
def strStrip (s : String) : String :=
  String.mk (((s.data.dropWhile isPySpace).reverse.dropWhile isPySpace).reverse)

/-- Uppercase an ASCII letter, model of the character map of Python str.upper
on the ASCII range used by the view strings. -/
def asciiUpper (c : Char) : Char :=
  if 'a' ≤ c ∧ c ≤ 'z' then Char.ofNat (c.toNat - 32) else c

/-- Model of Python str.upper() on ASCII strings. -/
def strUpper (s : String) : String := String.mk (s.data.map asciiUpper)

/-- Does the string end with the character Z (Python creation_time.endswith of Z). -/
def endsWithZ (s : String) : Bool := s.data.getLast? == some 'Z'

/-- Drop the final character (Python slice creation_time up to -1). -/
def dropLastChar (s : String) : String := String.mk s.data.dropLast

/-- Numeric value of an ASCII digit character, none otherwise. -/
def digitVal (c : Char) : Option Nat :=
  if '0' ≤ c ∧ c ≤ '9' then some (c.toNat - 48) else none

/-- Two-digit decimal number from two characters. -/
def parse2 (a b : Char) : Option Nat := do
  let x ← digitVal a
  let y ← digitVal b
  pure (10 * x + y)

/-- Four-digit decimal number from four characters. -/
def parse4 (a b c d : Char) : Option Nat := do
  let x ← parse2 a b
  let y ← parse2 c d
  pure (100 * x + y)

/-- Gregorian leap year test, as in the Python datetime module. -/
def isLeap (y : Nat) : Bool :=
  (y % 4 == 0) && (y % 100 != 0 || y % 400 == 0)

/-- Number of days in a month of the proleptic Gregorian calendar. -/
def daysInMonth (y m : Nat) : Nat :=
  if m = 2 then (if isLeap y then 29 else 28)
  else if m = 4 ∨ m = 6 ∨ m = 9 ∨ m = 11 then 30
  else 31

/-- Days before the start of the given month in the given year. -/
def daysBeforeMonth (y m : Nat) : Nat :=
  (match m with
   | 1 => 0 | 2 => 31 | 3 => 59 | 4 => 90 | 5 => 120 | 6 => 151 | 7 => 181
   | 8 => 212 | 9 => 243 | 10 => 273 | 11 => 304 | _ => 334)
  + (if 2 < m ∧ isLeap y then 1 else 0)

/-- Proleptic Gregorian ordinal of a date, as Python date.toordinal: day 1 is
January 1 of year 1. -/
def toordinal (y m d : Nat) : Nat :=
  365 * (y - 1) + (y - 1) / 4 - (y - 1) / 100 + (y - 1) / 400
    + daysBeforeMonth y m + d

/-- Model of datetime.fromisoformat for the subset of RFC 3339 timestamps the
monitoring path feeds it after Z-normalization: a four-digit year date, the
literal T separator, a second-precision time, and an explicit numeric UTC
offset. The result is the absolute time point in seconds (epoch: ordinal day
zero of the proleptic Gregorian calendar). Strings outside this shape yield
none: that covers genuinely malformed input (ValueError in the source) and
offset-free timestamps, whose naive datetime makes the subtraction from the
aware datetime.now(UTC) raise TypeError; the source catches both with the
same handler, so both collapse to none here. -/
def fromisoformatUTC (s : String) : Option ℤ :=
  match s.data with
  | [y1, y2, y3, y4, sep1, mo1, mo2, sep2, d1, d2, sepT,
     h1, h2, sep3, mi1, mi2, sep4, se1, se2, sign, oh1, oh2, sep5, om1, om2] =>
    if sep1 = '-' ∧ sep2 = '-' ∧ sepT = 'T' ∧ sep3 = ':' ∧ sep4 = ':' ∧ sep5 = ':'
        ∧ (sign = '+' ∨ sign = '-') then
      match parse4 y1 y2 y3 y4, parse2 mo1 mo2, parse2 d1 d2, parse2 h1 h2,
          parse2 mi1 mi2, parse2 se1 se2, parse2 oh1 oh2, parse2 om1 om2 with
      | some y, some mo, some d, some h, some mi, some se, some oh, some om =>
        if 1 ≤ y ∧ 1 ≤ mo ∧ mo ≤ 12 ∧ 1 ≤ d ∧ d ≤ daysInMonth y mo
            ∧ h ≤ 23 ∧ mi ≤ 59 ∧ se ≤ 59 ∧ oh ≤ 23 ∧ om ≤ 59 then
          let base : ℤ := (toordinal y mo d : ℤ) * 86400 + h * 3600 + mi * 60 + se
          let off : ℤ := oh * 3600 + om * 60
          some (if sign = '-' then base + off else base - off)
        else none
      | _, _, _, _, _, _, _, _ => none
    else none
  | _ => none

/-- The Z-suffix normalization step of _calculate_task_duration: an RFC 3339
timestamp ending in Z is rewritten to carry an explicit +00:00 UTC offset
before parsing. -/
def normalizeZ (s : String) : String :=
  if endsWithZ s then dropLastChar s ++ "+00:00" else s

/-- Embedding of _calculate_task_duration from src/poiesis_mcp/tools/wait.py.
now stands for datetime.now(UTC) as an absolute time point in seconds. The
source returns 0.0 when creation_time is falsy (None or empty) and catches
ValueError and TypeError from the parse and the subtraction, returning 0.0;
both failure modes are the none case of fromisoformatUTC here. On success it
returns the elapsed seconds divided by 60. Total by construction. -/
def calculate_task_duration (creation_time : Option String) (now : ℤ) : ℚ :=
  match creation_time with
  | none => 0
  | some s =>
    if s = "" then 0
    else
      match fromisoformatUTC (normalizeZ s) with
      | none => 0
      | some start_time => ((now : ℚ) - (start_time : ℚ)) / 60

/-- Minimal task model, from src/poiesis_mcp/tes/models.py (class MinimalTesTask):
it declares exactly the two fields id and state. -/
structure MinimalTesTask where
  id : String
  state : String
deriving DecidableEq

/-- One entry of RESPONSE_TEMPLATES in src/poiesis_mcp/tools/wait.py. The two
human-readable format strings (message and details) are presentation text and
are not modelled. -/
structure ResponseTemplate where
  should_continue_waiting : Bool
  wait_recommendation : String
  next_action : Option String
deriving DecidableEq

/-- Embedding of the RESPONSE_TEMPLATES dictionary: it has a key for each of
the seven TaskStatus members, so the .get fallback to UNKNOWN_STATE in
_build_response_payload never fires and lookup is this total function. -/
def RESPONSE_TEMPLATES : TaskStatus → ResponseTemplate
  | .COMPLETED_SUCCESS =>
      ⟨false, WaitStrategy.SUCCESS_PROCEED.value, some "get_tes_task"⟩
  | .COMPLETED_FAILED =>
      ⟨false, WaitStrategy.CHECK_LOGS.value, some "get_tes_task"⟩
  | .CANCELED =>
      ⟨false, WaitStrategy.NOTIFY_USER.value, none⟩
  | .STILL_RUNNING =>
      ⟨true, WaitStrategy.CONTINUE_WAITING.value, some "wait_for_task_completion"⟩
  | .STILL_RUNNING_TIMEOUT =>
      ⟨true, WaitStrategy.NOTIFY_USER.value, some "wait_for_task_completion"⟩
  | .ERROR_STATE =>
      ⟨false, WaitStrategy.CHECK_LOGS.value, some "get_tes_task"⟩
  | .UNKNOWN_STATE =>
      ⟨true, WaitStrategy.CONTINUE_WAITING.value, some "wait_for_task_completion"⟩

/-- Round an exact rational to the nearest integer with ties to even, the
idealized value semantics of Python round. -/
def roundHalfEven (x : ℚ) : ℤ :=
  let f := Int.floor x
  let frac := x - f
  if frac < 1 / 2 then f
  else if 1 / 2 < frac then f + 1
  else if f % 2 = 0 then f else f + 1

/-- Python round(x, 1): one decimal place, ties to even. -/
def round1 (x : ℚ) : ℚ := (roundHalfEven (10 * x) : ℚ) / 10

/-- The structured response dictionary built by _build_response_payload in
src/poiesis_mcp/tools/wait.py, without the two formatted text fields. -/
structure WaitPayload where
  success : Bool
  task_id : String
  task_name : String
  status : String
  state : String
  task_duration_minutes : ℚ
  estimated_wait_time : ℤ
  should_continue_waiting : Bool
  wait_recommendation : String
  next_action : Option String
deriving DecidableEq

/-- Embedding of _build_response_payload from src/poiesis_mcp/tools/wait.py
(max_wait_minutes only feeds the formatted text there, so it is not a
parameter here). -/
def build_response_payload (status : TaskStatus)
    (task_id task_name state : String) (duration_minutes : ℚ)
    (check_interval_seconds : ℤ) : WaitPayload :=
  let template := RESPONSE_TEMPLATES status
  { success := true
    task_id := task_id
    task_name := task_name
    status := status.value
    state := state
    task_duration_minutes := round1 duration_minutes
    estimated_wait_time := check_interval_seconds
    should_continue_waiting := template.should_continue_waiting
    wait_recommendation := template.wait_recommendation
    next_action := template.next_action }

/-- Embedding of the success path of wait_for_task_completion from
src/poiesis_mcp/tools/wait.py. The network fetch with view MINIMAL is
modelled by its already-parsed result task_data: src/poiesis_mcp/tes/client.py
line 258 parses the MINIMAL view body with MinimalTesTask.model_validate.
getattr with a default on a pydantic model falls back to the default when the
model declares no such field; MinimalTesTask declares only id and state, so
name falls back to the literal Unnamed Task and creation_time to None.
base_interval stands for constants.TASK_POLL_INTERVAL. An error value models
the ValueError raised for a blank task id. -/
def wait_for_task_completion (task_id : String) (max_wait_minutes : ℤ)
    (task_data : MinimalTesTask) (now : ℤ) (base_interval : ℤ) :
    Except String WaitPayload :=
  if strStrip task_id = "" then .error "Task ID cannot be empty."
  else
    let task_id := strStrip task_id
    let max_wait_minutes := if max_wait_minutes ≤ 0 then 10 else max_wait_minutes
    let current_state := task_data.state
    let task_name := "Unnamed Task"
    let creation_time : Option String := none
    let duration_minutes := calculate_task_duration creation_time now
    let status := analyze_task_status current_state duration_minutes max_wait_minutes
    let check_interval_seconds :=
      calculate_adaptive_interval current_state duration_minutes base_interval
    .ok (build_response_payload status task_id task_name current_state
      duration_minutes check_interval_seconds)

/-- The validation prologue of PoiesisTesClient.get_task from
src/poiesis_mcp/tes/client.py, returning the endpoint of the GET request the
client would then issue. An error result models TESClientError raised before
the session GET runs, so no network request is made. The source quotes the
view in its message; the quotes are elided here. -/
def client_get_task_request (base_url : String) (task_id : String)
    (view : Option String) : Except String String :=
  let task_id_str := task_id
  let view := match view with
    | none => TesView.BASIC.value
    | some v => v
  let valid_views := [TesView.MINIMAL.value, TesView.BASIC.value, TesView.FULL.value]
  if view ∉ valid_views then
    .error ("Invalid view " ++ view ++ ". Must be one of: "
      ++ String.intercalate ", " valid_views)
  else
    let endpoint := base_url ++ "/tasks/" ++ task_id_str
    let endpoint := if view ≠ "" then endpoint ++ "?view=" ++ view else endpoint
    .ok endpoint

/-- The validation prologue of get_task_logic from
src/poiesis_mcp/tools/get_task.py, returning the (task_id, view) pair that
would then be passed to PoiesisTesClient.get_task. An error result models the
ValueError raised before the client is even constructed, so no network
request is made. Python evaluates view.upper().strip() only for a truthy
view and substitutes BASIC for a falsy (empty) one. The source quotes the
view in its message; the quotes are elided here. -/
def get_task_logic_request (task_id : String) (view : String) :
    Except String (String × String) :=
  if strStrip task_id = "" then .error "Task ID is required and cannot be empty."
  else
    let task_id := strStrip task_id
    let view := if view = "" then "BASIC" else strStrip (strUpper view)
    let valid_views := ["MINIMAL", "BASIC", "FULL"]
    if view ∉ valid_views then
      .error ("Invalid view " ++ view ++ ". Must be one of: "
        ++ String.intercalate ", " valid_views
        ++ ". Use MINIMAL for quick status checks, BASIC for standard info, or "
        ++ "FULL for complete details including logs.")
    else .ok (task_id, view)

/-- Configuration values of the Constants class in src/poiesis_mcp/constants.py,
as read from the environment: os.getenv yields None for unset variables, so
the two string settings are optional strings and the numeric ones are the
parsed int or float values. -/
structure Constants where
  TES_URL : Option String
  REQUEST_TOKEN : Option String
  REQUEST_TIMEOUT : ℤ
  MAX_RETRIES : ℤ
  BACKOFF_FACTOR : ℚ
  MCP_HOST : String
  MCP_PORT : ℤ
  LOG_LEVEL : String
  TASK_POLL_INTERVAL : ℤ
  TASK_POLL_MAX_ATTEMPTS : ℤ
deriving DecidableEq

/-- Python truthiness of an optional string: None and the empty string are falsy. -/
def strTruthy : Option String → Bool
  | none => false
  | some s => s != ""

/-- Embedding of Constants.validate_config from src/poiesis_mcp/constants.py:
the list of error messages accumulated in source order. Note that a falsy
REQUEST_TOKEN appends to this same error list, exactly like a missing URL or
an out-of-range numeric setting. -/
def validate_config (c : Constants) : List String :=
  (if !strTruthy c.TES_URL then
    ["TES_URL environment variable is required"] else [])
  ++ (if !strTruthy c.REQUEST_TOKEN then
    ["TES_TOKEN environment variable should be set for secure authentication"] else [])
  ++ (if c.REQUEST_TIMEOUT ≤ 0 then
    ["TES_REQUEST_TIMEOUT must be a positive integer"] else [])
  ++ (if c.MAX_RETRIES < 0 then
    ["TES_MAX_RETRIES must be a non-negative integer"] else [])
  ++ (if c.BACKOFF_FACTOR ≤ 0 then
    ["TES_BACKOFF_FACTOR must be a positive number"] else [])
  ++ (if c.MCP_PORT ≤ 0 ∨ 65535 < c.MCP_PORT then
    ["MCP_PORT must be a valid port number (1-65535)"] else [])
  ++ (if c.TASK_POLL_INTERVAL ≤ 0 then
    ["TASK_POLL_INTERVAL must be a positive integer"] else [])
  ++ (if c.TASK_POLL_MAX_ATTEMPTS ≤ 0 then
    ["TASK_POLL_MAX_ATTEMPTS must be a positive integer"] else [])

/-- Embedding of validate_environment from src/poiesis_mcp/main.py: when
validate_config reports errors it returns failure at once; otherwise it
constructs the client and, when a URL is configured, appends an error if the
health check fails. health stands for the boolean outcome of
client.health_check(); the client-construction try/except is not modelled
(construction only raises when TES_URL is falsy, which validate_config has
already refused at this point). main exits when the returned flag is false. -/
def validate_environment (c : Constants) (health : Bool) : Bool × List String :=
  let errors := validate_config c
  if errors ≠ [] then (false, errors)
  else
    let errors :=
      if strTruthy c.TES_URL ∧ !health then
        errors ++ ["TES service at the configured URL is not accessible."]
      else errors
    (errors = [], errors)

/-- The outcome of the single GET issued by PoiesisTesClient.health_check:
either a response with its status code, or any raised exception (connection
failure, timeout, or anything else) with its message. -/
inductive HttpOutcome where
  | response (status_code : ℤ)
  | failure (message : String)
deriving DecidableEq

/-- Embedding of PoiesisTesClient.health_check from src/poiesis_mcp/tes/client.py:
the status code is compared to 200 and the blanket except clause turns every
raised exception into False. Total by construction: no outcome raises. -/
def health_check (outcome : HttpOutcome) : Bool :=
  match outcome with
  | .response code => code == 200
  | .failure _ => false

/-- Split a character list at every slash, as Python path handling does. -/
def splitSlash : List Char → List (List Char)
  | [] => [[]]
  | c :: rest =>
    if c = '/' then [] :: splitSlash rest
    else
      match splitSlash rest with
      | [] => [[c]]
      | g :: gs => (c :: g) :: gs

/-- Join character-list components with single slashes, the inverse of
splitSlash on slash-free components. -/
def joinSlash : List (List Char) → List Char
  | [] => []
  | c :: cs =>
    match cs with
    | [] => c
    | _ :: _ => c ++ '/' :: joinSlash cs

/-- True when the string has exactly two leading slashes: POSIX gives a
double-slash root special meaning, preserved by both pathlib and
os.path.normpath (which keep such a root, while one slash or three or more
collapse to a single-slash root). -/
def doubleSlashRoot (s : String) : Bool :=
  match s.data with
  | a :: b :: rest =>
    (a == '/') && (b == '/') &&
      (match rest with
       | c :: _ => !(c == '/')
       | [] => true)
  | _ => false

/-- The root character run of an absolute POSIX path. -/
def rootOf (s : String) : List Char :=
  if doubleSlashRoot s then ['/', '/'] else ['/']

/-- The non-root components of a path as pathlib PurePosixPath keeps them:
empty components (spurious slashes) and single dots are dropped, double dots
are kept. -/
def pathComponents (s : String) : List (List Char) :=
  (splitSlash s.data).filter (fun c => !(c == []) && !(c == ['.']))

/-- Rebuild an absolute POSIX path string from its double-slash-root flag and
its component list; the common final step of the pathlib constructor and of
os.path.normpath. -/
def buildAbs (d : Bool) (comps : List (List Char)) : String :=
  if comps = [] then String.mk (if d then ['/', '/'] else ['/'])
  else String.mk ((if d then ['/', '/'] else ['/']) ++ joinSlash comps)

/-- str(pathlib.PurePosixPath(s)) for an absolute s: the constructor collapses
spurious slashes and single dots but keeps double dots, and never touches the
filesystem. -/
def posixPathStr (s : String) : String :=
  buildAbs (doubleSlashRoot s) (pathComponents s)

/-- True when the string begins with a slash (Python path.startswith of a slash). -/
def startsWithSlash (s : String) : Bool :=
  match s.data with
  | [] => false
  | c :: _ => c == '/'

/-- Parts count of pathlib Path(s).parts for an absolute s: the root plus the
kept components. -/
def posixPathPartsCount (s : String) : Nat := 1 + (pathComponents s).length

/-- One step of the os.path.normpath component scan: a double dot pops the
last kept component (and vanishes at the root), everything else is kept. -/
def normStep (st : List (List Char)) (c : List Char) : List (List Char) :=
  if c = ['.', '.'] then st.dropLast else st ++ [c]

/-- os.path.normpath restricted to absolute POSIX paths (TesOutput.validate_path
only reaches it after checking the path starts with a slash): spurious
slashes and single dots collapse, double dots resolve against the parent and
vanish at the root, and a double-slash root is preserved. -/
def normpath (s : String) : String :=
  buildAbs (doubleSlashRoot s) ((pathComponents s).foldl normStep [])

/-- str(pathlib.Path(v).absolute()): an absolute input is returned as the
constructor built it (no normalization beyond that), a relative one is
joined onto the current working directory. cwd stands for os.getcwd(). -/
def pathAbsoluteStr (cwd : String) (v : String) : String :=
  if startsWithSlash v then posixPathStr v
  else posixPathStr (cwd ++ "/" ++ v)

/-- File type enumeration, from src/poiesis_mcp/tes/models.py (class TesFileType). -/
inductive TesFileType where
  | FILE
  | DIRECTORY
deriving DecidableEq

/-- The string value of each TesFileType member. -/
def TesFileType.value : TesFileType → String
  | .FILE => "FILE"
  | .DIRECTORY => "DIRECTORY"

/-- Pydantic validation of a wire string into TesFileType (enum by value). -/
def TesFileType.parse (s : String) : Option TesFileType :=
  if s = "FILE" then some .FILE
  else if s = "DIRECTORY" then some .DIRECTORY
  else none

/-- Pydantic validation of a wire string into TesState (enum by value). -/
def TesState.parse (s : String) : Option TesState :=
  if s = "UNKNOWN" then some .UNKNOWN
  else if s = "QUEUED" then some .QUEUED
  else if s = "INITIALIZING" then some .INITIALIZING
  else if s = "RUNNING" then some .RUNNING
  else if s = "PAUSED" then some .PAUSED
  else if s = "COMPLETE" then some .COMPLETE
  else if s = "EXECUTOR_ERROR" then some .EXECUTOR_ERROR
  else if s = "SYSTEM_ERROR" then some .SYSTEM_ERROR
  else if s = "CANCELED" then some .CANCELED
  else if s = "PREEMPTED" then some .PREEMPTED
  else if s = "CANCELING" then some .CANCELING
  else none

/-- Executor model, from src/poiesis_mcp/tes/models.py (class TesExecutor).
The env dict is modelled as an association list; floats do not occur. The
class declares no serializers or validators, so it is its own wire shape. -/
structure TesExecutor where
  image : String
  command : List String
  workdir : Option String := none
  stdin : Option String := none
  stdout : Option String := none
  stderr : Option String := none
  env : Option (List (String × String)) := none
  ignore_error : Option Bool := none
deriving DecidableEq

/-- Input model, from src/poiesis_mcp/tes/models.py (class TesInput). The path
field carries a serializer (Path absolute) but, unlike TesOutput, no
validator. -/
structure TesInput where
  name : Option String := none
  description : Option String := none
  url : Option String := none
  path : String
  type : Option TesFileType := some .FILE
  content : Option String := none
  streamable : Option Bool := none
deriving DecidableEq

/-- Output model, from src/poiesis_mcp/tes/models.py (class TesOutput). The
source field path_prefix is spelled pathPrefix here. -/
structure TesOutput where
  name : Option String := none
  description : Option String := none
  url : String
  path : String
  pathPrefix : Option String := none
  type : Option TesFileType := some .FILE
deriving DecidableEq

/-- Resource model, from src/poiesis_mcp/tes/models.py (class TesResources).
Python floats are modelled as exact rationals (they are pass-through values,
never computed with). No serializers or validators, so it is its own wire
shape; backend_parameters_strict defaults to False when absent. -/
structure TesResources where
  cpu_cores : Option ℤ := none
  preemptible : Option Bool := none
  ram_gb : Option ℚ := none
  disk_gb : Option ℚ := none
  zones : Option (List String) := none
  backend_parameters : Option (List (String × String)) := none
  backend_parameters_strict : Option Bool := some false
deriving DecidableEq

/-- Executor log model, from src/poiesis_mcp/tes/models.py (class
TesExecutorLog). start_time has a default factory producing the current
timestamp when the field is absent. -/
structure TesExecutorLog where
  start_time : Option String
  end_time : Option String := none
  stdout : Option String := none
  stderr : Option String := none
  exit_code : ℤ
deriving DecidableEq

/-- Output file log model, from src/poiesis_mcp/tes/models.py (class
TesOutputFileLog): three required strings. -/
structure TesOutputFileLog where
  url : String
  path : String
  size_bytes : String
deriving DecidableEq

/-- Task log model, from src/poiesis_mcp/tes/models.py (class TesTaskLog). -/
structure TesTaskLog where
  logs : List TesExecutorLog
  metadata : Option (List (String × String)) := none
  start_time : Option String
  end_time : Option String := none
  outputs : List TesOutputFileLog
  system_logs : Option (List String) := none
deriving DecidableEq

/-- Task model, from src/poiesis_mcp/tes/models.py (class TesTask). state
defaults to UNKNOWN and creation_time to a freshly generated timestamp when
absent from the wire. -/
structure TesTask where
  id : Option String := none
  state : Option TesState := some .UNKNOWN
  name : Option String := none
  description : Option String := none
  inputs : Option (List TesInput) := none
  outputs : Option (List TesOutput) := none
  resources : Option TesResources := none
  executors : List TesExecutor
  volumes : Option (List String) := none
  tags : Option (List (String × String)) := none
  logs : Option (List TesTaskLog) := none
  creation_time : Option String
deriving DecidableEq

/-- Wire shape of TesInput: the enum travels as its plain string value. An
optional field that is none is absent from the JSON object (both dump call
sites in the repository use model_dump(exclude_none=True), and JSON null is
outside this wire model). -/
structure TesInputWire where
  name : Option String := none
  description : Option String := none
  url : Option String := none
  path : String
  type : Option String := none
  content : Option String := none
  streamable : Option Bool := none
deriving DecidableEq

/-- Wire shape of TesOutput. -/
structure TesOutputWire where
  name : Option String := none
  description : Option String := none
  url : String
  path : String
  pathPrefix : Option String := none
  type : Option String := none
deriving DecidableEq

/-- Wire shape of TesTask: the state enum travels as its string value, inputs
and outputs in their own wire shapes; executors, resources and logs have no
field transforms and keep their model shapes on the wire. -/
structure TesTaskWire where
  id : Option String := none
  state : Option String := none
  name : Option String := none
  description : Option String := none
  inputs : Option (List TesInputWire) := none
  outputs : Option (List TesOutputWire) := none
  resources : Option TesResources := none
  executors : List TesExecutor
  volumes : Option (List String) := none
  tags : Option (List (String × String)) := none
  logs : Option (List TesTaskLog) := none
  creation_time : Option String := none
deriving DecidableEq

/-- model_dump of a TesInput: the type serializer emits the enum value and the
path serializer emits str(Path(path).absolute()). -/
def dumpInput (cwd : String) (i : TesInput) : TesInputWire :=
  { name := i.name
    description := i.description
    url := i.url
    path := pathAbsoluteStr cwd i.path
    type := Option.map TesFileType.value i.type
    content := i.content
    streamable := i.streamable }

/-- model_dump of a TesOutput: same two field serializers as TesInput. -/
def dumpOutput (cwd : String) (o : TesOutput) : TesOutputWire :=
  { name := o.name
    description := o.description
    url := o.url
    path := pathAbsoluteStr cwd o.path
    pathPrefix := o.pathPrefix
    type := Option.map TesFileType.value o.type }

/-- model_dump of a TesTask: the state serializer emits the enum value, inputs
and outputs dump elementwise, every other field passes through. -/
def dumpTask (cwd : String) (t : TesTask) : TesTaskWire :=
  { id := t.id
    state := Option.map TesState.value t.state
    name := t.name
    description := t.description
    inputs := Option.map (List.map (dumpInput cwd)) t.inputs
    outputs := Option.map (List.map (dumpOutput cwd)) t.outputs
    resources := t.resources
    executors := t.executors
    volumes := t.volumes
    tags := t.tags
    logs := t.logs
    creation_time := t.creation_time }

/-- Pydantic validation of the optional type field: absent defaults to FILE,
a present string must be a TesFileType value. -/
def parseFileTypeField : Option String → Except String (Option TesFileType)
  | none => .ok (some .FILE)
  | some s =>
    match TesFileType.parse s with
    | some ft => .ok (some ft)
    | none => .error ("Input should be FILE or DIRECTORY, got " ++ s)

/-- Pydantic validation of the optional state field: absent defaults to
UNKNOWN, a present string must be a TesState value. -/
def parseStateField : Option String → Except String (Option TesState)
  | none => .ok (some .UNKNOWN)
  | some s =>
    match TesState.parse s with
    | some st => .ok (some st)
    | none => .error ("Input should be a TesState value, got " ++ s)

/-- model_validate of a TesInput from its wire shape. No path validator. -/
def parseInput (w : TesInputWire) : Except String TesInput := do
  let ty ← parseFileTypeField w.type
  pure { name := w.name
         description := w.description
         url := w.url
         path := w.path
         type := ty
         content := w.content
         streamable := w.streamable }

/-- Embedding of TesOutput.validate_path from src/poiesis_mcp/tes/models.py:
reject a path that does not start with a slash, normalize with
os.path.normpath, and reject a normalized path of fewer than three pathlib
parts (root plus two components); return the normalized path. The source
messages contain apostrophes, elided here. -/
def validate_path (path : String) : Except String String :=
  if !startsWithSlash path then .error "Path must be an absolute path."
  else
    let normalized_path := normpath path
    if posixPathPartsCount normalized_path < 3 then
      .error "Path cannot be at the root, it must be at least one level nested."
    else .ok normalized_path

/-- model_validate of a TesOutput from its wire shape, running the path
validator. -/
def parseOutput (w : TesOutputWire) : Except String TesOutput := do
  let ty ← parseFileTypeField w.type
  let p ← validate_path w.path
  pure { name := w.name
         description := w.description
         url := w.url
         path := p
         pathPrefix := w.pathPrefix
         type := ty }

/-- model_validate of a TesExecutorLog: an absent start_time is filled by the
default factory with the current timestamp nowStr. -/
def parseExecutorLog (nowStr : String) (w : TesExecutorLog) : TesExecutorLog :=
  { w with start_time := some (w.start_time.getD nowStr) }

/-- model_validate of a TesTaskLog: default factories fill the start times. -/
def parseTaskLog (nowStr : String) (w : TesTaskLog) : TesTaskLog :=
  { w with logs := w.logs.map (parseExecutorLog nowStr)
           start_time := some (w.start_time.getD nowStr) }

/-- model_validate of a TesResources: an absent backend_parameters_strict
defaults to False. -/
def parseResources (r : TesResources) : TesResources :=
  { r with backend_parameters_strict := some (r.backend_parameters_strict.getD false) }

/-- Validation of the optional inputs field: absent stays absent, a present
list is validated elementwise. -/
def parseInputsField : Option (List TesInputWire) →
    Except String (Option (List TesInput))
  | none => .ok none
  | some l =>
    match l.mapM parseInput with
    | .error e => .error e
    | .ok parsed => .ok (some parsed)

/-- Validation of the optional outputs field: absent stays absent, a present
list is validated elementwise. -/
def parseOutputsField : Option (List TesOutputWire) →
    Except String (Option (List TesOutput))
  | none => .ok none
  | some l =>
    match l.mapM parseOutput with
    | .error e => .error e
    | .ok parsed => .ok (some parsed)

/-- model_validate of a TesTask from its wire shape. nowStr stands for the
timestamp the default factories generate at validation time. Pydantic
collects all field errors; this embedding reports one of them, which only
changes the error payload, never whether an ok task is produced or its
value. -/
def parseTask (nowStr : String) (w : TesTaskWire) : Except String TesTask :=
  match parseStateField w.state, parseInputsField w.inputs,
      parseOutputsField w.outputs with
  | .ok st, .ok ins, .ok outs =>
    .ok { id := w.id
          state := st
          name := w.name
          description := w.description
          inputs := ins
          outputs := outs
          resources := Option.map parseResources w.resources
          executors := w.executors
          volumes := w.volumes
          tags := w.tags
          logs := Option.map (List.map (parseTaskLog nowStr)) w.logs
          creation_time := some (w.creation_time.getD nowStr) }
  | .error e, _, _ => .error e
  | _, .error e, _ => .error e
  | _, _, .error e => .error e

/-- The validation prologue of create_task_logic from
src/poiesis_mcp/tools/create_task.py: a task whose executors list is empty
(falsy) raises ValueError before PoiesisTesClient is constructed, so no
network call is made; otherwise the task is what client.create_task would be
given. -/
def create_task_logic_request (task : TesTask) : Except String TesTask :=
  if task.executors = [] then
    .error ("Task must have at least one executor. Please provide a list of "
      ++ "executors with commands to run.")
  else .ok task

/-- The path invariant that TesOutput.validate_path establishes on every
parsed output: an absolute path, fixed by the pathlib constructor, fixed by
normpath, with at least three parts. -/
def GoodOutput (o : TesOutput) : Prop :=
  startsWithSlash o.path = true ∧ posixPathStr o.path = o.path ∧
    normpath o.path = o.path ∧ 3 ≤ posixPathPartsCount o.path

/-- Every present input has a populated type field. -/
def InputsTyped (ins : Option (List TesInput)) : Prop :=
  match ins with
  | none => True
  | some l => ∀ i ∈ l, (TesInput.type i).isSome = true

/-- Every present output has a populated type field and carries the validator
path invariant. -/
def OutputsGood (outs : Option (List TesOutput)) : Prop :=
  match outs with
  | none => True
  | some l => ∀ o ∈ l, (TesOutput.type o).isSome = true ∧ GoodOutput o

/-- A present resources value has a populated strict flag. -/
def ResourcesGood (x : Option TesResources) : Prop :=
  match x with
  | none => True
  | some r => r.backend_parameters_strict.isSome = true

/-- Every present task log and its executor logs have populated start times. -/
def LogsGood (x : Option (List TesTaskLog)) : Prop :=
  match x with
  | none => True
  | some ls => ∀ lg ∈ ls, lg.start_time.isSome = true ∧
      ∀ el ∈ TesTaskLog.logs lg, el.start_time.isSome = true

/-- The field invariants every task produced by parseTask satisfies: the
optional fields with non-None defaults are populated and every parsed output
path carries the validator invariant. -/
def GoodTask (t : TesTask) : Prop :=
  t.state.isSome = true ∧ InputsTyped t.inputs ∧ OutputsGood t.outputs ∧
    ResourcesGood t.resources ∧ LogsGood t.logs ∧ t.creation_time.isSome = true

/-- Every present input path is an absolute path already in the normal form
the pathlib constructor produces. -/
def InputsNorm (ins : Option (List TesInput)) : Prop :=
  match ins with
  | none => True
  | some l => ∀ i ∈ l, startsWithSlash i.path = true ∧ posixPathStr i.path = i.path

/-- Every input path of the task is an absolute path already in the normal
form the pathlib constructor produces. TesInput has no path validator, so
this is not guaranteed by parsing; it is the extra hypothesis the round-trip
property needs. -/
def InputsNormalized (t : TesTask) : Prop := InputsNorm t.inputs

/-- The shape every component kept by the path machinery has: non-empty, not
a single dot, and slash-free. -/
def CompOK (c : List Char) : Prop := c ≠ [] ∧ c ≠ ['.'] ∧ '/' ∉ c

/-- A concrete executor used by the examples below. -/
def exampleExecutor : TesExecutor :=
  { image := "ubuntu:20.04", command := ["/bin/md5", "/data/file1"] }

/-- A wire input whose path contains a spurious double slash: accepted by
validation (TesInput has no path validator) but not fixed by the path
serializer. -/
def exampleWireInputDoubled : TesInputWire :=
  { path := "/data//file1", type := some "FILE" }

/-- A wire task carrying exampleWireInputDoubled. -/
def exampleWireTaskDoubled : TesTaskWire :=
  { id := some "task-1"
    state := some "RUNNING"
    inputs := some [exampleWireInputDoubled]
    executors := [exampleExecutor]
    creation_time := some "2024-01-01T00:00:00+00:00" }

/-- The task exampleWireTaskDoubled parses to: the doubled slash survives
validation because TesInput declares no path validator. -/
def exampleTaskDoubled : TesTask :=
  { id := some "task-1"
    state := some .RUNNING
    inputs := some [{ path := "/data//file1", type := some .FILE }]
    executors := [exampleExecutor]
    creation_time := some "2024-01-01T00:00:00+00:00" }

/-- What one serialize-and-parse round trip turns exampleTaskDoubled into:
the path serializer rewrites the doubled slash away. -/
def exampleTaskDoubledRT : TesTask :=
  { id := some "task-1"
    state := some .RUNNING
    inputs := some [{ path := "/data/file1", type := some .FILE }]
    executors := [exampleExecutor]
    creation_time := some "2024-01-01T00:00:00+00:00" }

/-- A wire task whose input path is already in pathlib normal form, with an
output exercising the path validator. -/
def exampleWireTaskNormal : TesTaskWire :=
  { id := some "task-1"
    state := some "RUNNING"
    inputs := some [{ path := "/data/file1", type := some "FILE" }]
    outputs := some [{ url := "s3://bucket/out", path := "/data/outfile",
                       type := some "FILE" }]
    executors := [exampleExecutor]
    creation_time := some "2024-01-01T00:00:00+00:00" }

/-- The task exampleWireTaskNormal parses to. -/
def exampleTaskNormal : TesTask :=
  { id := some "task-1"
    state := some .RUNNING
    inputs := some [{ path := "/data/file1", type := some .FILE }]
    outputs := some [{ url := "s3://bucket/out", path := "/data/outfile",
                       type := some .FILE }]
    executors := [exampleExecutor]
    creation_time := some "2024-01-01T00:00:00+00:00" }

/-- C1: the status classifier _analyze_task_status is a total function of the
raw state string, the elapsed minutes and the threshold (total by
construction, so it never raises and always yields one of the seven
TaskStatus values), and it agrees everywhere with the spec case analysis:
COMPLETE to completed_success; EXECUTOR_ERROR or SYSTEM_ERROR to
completed_failed; CANCELED to canceled; RUNNING, QUEUED or INITIALIZING to
still_running below the threshold and still_running_timeout at or above it
(the boundary elapsed equal to max_wait yields the timeout status); PAUSED
or PREEMPTED to error_state; every other string, including UNKNOWN,
CANCELING and unrecognized states, to unknown_state. -/
theorem analyze_task_status_matches_spec (s : String) (d : ℚ) (m : ℤ) :
    analyze_task_status s d m = classify s d m := by
  unfold analyze_task_status classify TesState.value
  simp only [List.mem_cons, List.mem_singleton, List.not_mem_nil, or_false]
  split_ifs <;> first | rfl | linarith

/-- C2: the adaptive interval function _calculate_adaptive_interval agrees
everywhere with the spec case analysis: below one elapsed minute the fast
initial poll max(2, base div 2) regardless of state; then the tiered backoff
for RUNNING or INITIALIZING (base below five minutes, twice base in [5, 15),
three times base at or above 15); base for QUEUED; max(3, base div 2) for
UNKNOWN or PAUSED; base for every other state. -/
theorem calculate_adaptive_interval_matches_spec (s : String) (d : ℚ) (b : ℤ) :
    calculate_adaptive_interval s d b = adaptive_interval s d b := by
  unfold calculate_adaptive_interval adaptive_interval TesState.value
  simp only [List.mem_cons, List.mem_singleton, List.not_mem_nil, or_false]

/-- C8: health_check is total over every outcome of the underlying request
(so it never raises), returns true exactly for a response with status 200,
and reports every other outcome, including any raised exception, as false. -/
theorem health_check_true_iff_status_200 (o : HttpOutcome) :
    health_check o = true ↔ o = .response 200 := by
  cases o with
  | response code => simp [health_check]
  | failure msg => simp [health_check]

/-- The validate_config error list is empty exactly when the URL and the
token are both set and non-empty and every numeric setting lies in range. -/
theorem validate_config_empty_iff (c : Constants) :
    validate_config c = [] ↔
      (strTruthy c.TES_URL = true ∧ strTruthy c.REQUEST_TOKEN = true ∧
       0 < c.REQUEST_TIMEOUT ∧ 0 ≤ c.MAX_RETRIES ∧ 0 < c.BACKOFF_FACTOR ∧
       0 < c.MCP_PORT ∧ c.MCP_PORT ≤ 65535 ∧ 0 < c.TASK_POLL_INTERVAL ∧
       0 < c.TASK_POLL_MAX_ATTEMPTS) := by
  unfold validate_config
  split_ifs <;> (simp_all; try omega)

/-- C7 counterexample: a configuration that differs from a fully valid one
only by its missing auth token still produces a validation error, and
environment validation then fails startup; the claim that a missing token
merely warns is false on the code. -/
theorem missing_token_fails_startup_counterexample :
    validate_config
        { TES_URL := some "http://tes.example", REQUEST_TOKEN := none,
          REQUEST_TIMEOUT := 60, MAX_RETRIES := 3, BACKOFF_FACTOR := 1,
          MCP_HOST := "0.0.0.0", MCP_PORT := 8080, LOG_LEVEL := "INFO",
          TASK_POLL_INTERVAL := 5, TASK_POLL_MAX_ATTEMPTS := 120 }
      = ["TES_TOKEN environment variable should be set for secure authentication"]
    ∧ (validate_environment
        { TES_URL := some "http://tes.example", REQUEST_TOKEN := none,
          REQUEST_TIMEOUT := 60, MAX_RETRIES := 3, BACKOFF_FACTOR := 1,
          MCP_HOST := "0.0.0.0", MCP_PORT := 8080, LOG_LEVEL := "INFO",
          TASK_POLL_INTERVAL := 5, TASK_POLL_MAX_ATTEMPTS := 120 } true).1
      = false := by
  constructor
  · rfl
  · rfl

/-- C7 amended: startup validation succeeds exactly when the service URL and
the auth token are both set and non-empty, every numeric setting (timeout,
retries, backoff factor, port, poll interval, poll max attempts) is in
range, and the health check passes; in particular a missing or empty auth
token is appended to the validation error list and fails startup exactly
like a missing URL, while a present token (even the default asdf) passes
validation and only draws a client-side log warning. -/
theorem validate_environment_ok_iff (c : Constants) (health : Bool) :
    (validate_environment c health).1 = true ↔
      (strTruthy c.TES_URL = true ∧ strTruthy c.REQUEST_TOKEN = true ∧
       0 < c.REQUEST_TIMEOUT ∧ 0 ≤ c.MAX_RETRIES ∧ 0 < c.BACKOFF_FACTOR ∧
       0 < c.MCP_PORT ∧ c.MCP_PORT ≤ 65535 ∧ 0 < c.TASK_POLL_INTERVAL ∧
       0 < c.TASK_POLL_MAX_ATTEMPTS ∧ health = true) := by
  by_cases h : validate_config c = []
  · obtain ⟨h1, h2, h3, h4, h5, h6, h7, h8, h9⟩ := (validate_config_empty_iff c).mp h
    cases health with
    | true => simp [validate_environment, h, h1, h2, h3, h4, h5, h6, h7, h8, h9]
    | false => simp [validate_environment, h, h1, h2, h3, h4, h5, h6, h7, h8, h9]
  · constructor
    · intro hf
      exfalso
      simp [validate_environment, h] at hf
    · rintro ⟨h1, h2, h3, h4, h5, h6, h7, h8, h9, -⟩
      exact absurd ((validate_config_empty_iff c).mpr
        ⟨h1, h2, h3, h4, h5, h6, h7, h8, h9⟩) h

/-- C6: a task specification whose executors list is empty is rejected by the
create operation with a validation error raised before the client is
constructed, so no network call is made. -/
theorem create_task_rejects_empty_executors (t : TesTask)
    (h : t.executors = []) :
    create_task_logic_request t
      = .error ("Task must have at least one executor. Please provide a list of "
          ++ "executors with commands to run.") := by
  unfold create_task_logic_request
  rw [if_pos h]

/-- Witness for C6 at a concrete executor-less task. -/
theorem create_task_rejects_empty_executors_witness :
    create_task_logic_request { executors := [], creation_time := none }
      = .error ("Task must have at least one executor. Please provide a list of "
          ++ "executors with commands to run.") :=
  create_task_rejects_empty_executors { executors := [], creation_time := none } rfl

/-- C5: a view string whose facade normalization (uppercase then strip, with
empty defaulting to BASIC) is none of MINIMAL, BASIC, FULL makes
get_task_logic fail with a client-side validation error before any network
request (no request value is ever produced); and independently the client
fetch operation raises its client error for any invalid view before issuing
the GET request. -/
theorem get_task_invalid_view_fails_before_network (task_id view : String)
    (hid : strStrip task_id ≠ "")
    (hview : (if view = "" then "BASIC" else strStrip (strUpper view))
      ∉ (["MINIMAL", "BASIC", "FULL"] : List String)) :
    (∃ msg, get_task_logic_request task_id view = .error msg) ∧
    (∀ base tid v, v ∉ ([TesView.MINIMAL.value, TesView.BASIC.value,
        TesView.FULL.value] : List String) →
      ∃ msg, client_get_task_request base tid (some v) = .error msg) := by
  constructor
  · unfold get_task_logic_request
    rw [if_neg hid, if_pos hview]
    exact ⟨_, rfl⟩
  · intro base tid v hv
    unfold client_get_task_request
    rw [if_pos hv]
    exact ⟨_, rfl⟩

/-- Witness for C5 at the concrete view bogus. -/
theorem get_task_invalid_view_fails_before_network_witness :
    (∃ msg, get_task_logic_request "task-1" "bogus" = .error msg) ∧
    (∃ msg, client_get_task_request "http://tes" "task-1" (some "bogus")
      = .error msg) := by
  constructor
  · exact (get_task_invalid_view_fails_before_network "task-1" "bogus"
      (by decide) (by decide)).1
  · exact (get_task_invalid_view_fails_before_network "task-1" "bogus"
      (by decide) (by decide)).2 "http://tes" "task-1" "bogus" (by decide)

/-- C10: a non-positive max_wait_minutes is silently coerced to the default
10 before classification (the call behaves exactly as with 10) and the call
is not rejected on that account: with a non-blank task id it still returns a
payload. -/
theorem wait_coerces_nonpositive_max_wait (task_id : String) (m : ℤ)
    (task_data : MinimalTesTask) (now base : ℤ)
    (hid : strStrip task_id ≠ "") (hm : m ≤ 0) :
    wait_for_task_completion task_id m task_data now base
      = wait_for_task_completion task_id 10 task_data now base ∧
    ∃ p, wait_for_task_completion task_id m task_data now base = .ok p := by
  unfold wait_for_task_completion
  rw [if_neg hid, if_neg hid, if_pos hm, if_neg (by omega : ¬ (10 : ℤ) ≤ 0)]
  exact ⟨rfl, _, rfl⟩

/-- Witness for C10 at a concrete call with max_wait_minutes equal to -5. -/
theorem wait_coerces_nonpositive_max_wait_witness :
    wait_for_task_completion "abc" (-5) ⟨"id1", "RUNNING"⟩ 0 5
      = wait_for_task_completion "abc" 10 ⟨"id1", "RUNNING"⟩ 0 5 ∧
    ∃ p, wait_for_task_completion "abc" (-5) ⟨"id1", "RUNNING"⟩ 0 5 = .ok p :=
  wait_coerces_nonpositive_max_wait "abc" (-5) ⟨"id1", "RUNNING"⟩ 0 5
    (by decide) (by decide)

/-- The classifier never yields the timeout status for a zero duration once
the threshold is at least one minute. -/
theorem analyze_zero_duration_no_timeout (s : String) (mw : ℤ) (h : 1 ≤ mw) :
    analyze_task_status s 0 mw ≠ .STILL_RUNNING_TIMEOUT := by
  intro hcontra
  unfold analyze_task_status at hcontra
  have hq : (1 : ℚ) ≤ (mw : ℚ) := by exact_mod_cast h
  split_ifs at hcontra
  first
  | exact absurd hcontra (by decide)
  | linarith

/-- C3: on the success path of wait_for_task_completion the MINIMAL view
response is parsed into MinimalTesTask, which declares only id and state, so
creation_time is absent (None) and task_name falls back to Unnamed Task; the
computed duration is therefore 0.0, the returned task_duration_minutes is
0.0, the returned status is never still_running_timeout whatever
max_wait_minutes was passed, and the returned estimated_wait_time is the
fast-path value max(2, TASK_POLL_INTERVAL div 2) regardless of the real age
or state of the task. -/
theorem wait_minimal_view_consequences (task_id : String) (m : ℤ)
    (task_data : MinimalTesTask) (now base : ℤ)
    (hid : strStrip task_id ≠ "") :
    ∃ p, wait_for_task_completion task_id m task_data now base = .ok p ∧
      p.task_duration_minutes = 0 ∧
      p.task_name = "Unnamed Task" ∧
      p.status ≠ TaskStatus.STILL_RUNNING_TIMEOUT.value ∧
      p.estimated_wait_time = max 2 (Int.fdiv base 2) := by
  unfold wait_for_task_completion
  rw [if_neg hid]
  refine ⟨_, rfl, ?_, ?_, ?_, ?_⟩
  · show round1 (calculate_task_duration none now) = 0
    show round1 0 = 0
    unfold round1 roundHalfEven
    norm_num
  · rfl
  · show (analyze_task_status task_data.state
        (calculate_task_duration none now)
        (if m ≤ 0 then 10 else m)).value ≠ _
    show (analyze_task_status task_data.state 0 (if m ≤ 0 then 10 else m)).value ≠ _
    have hmw : (1 : ℤ) ≤ (if m ≤ 0 then 10 else m) := by
      split
      · omega
      · omega
    have hne := analyze_zero_duration_no_timeout task_data.state _ hmw
    revert hne
    cases analyze_task_status task_data.state 0 (if m ≤ 0 then 10 else m) <;>
      intro hne <;> first | decide | exact absurd rfl hne
  · show calculate_adaptive_interval task_data.state
        (calculate_task_duration none now) base = _
    show calculate_adaptive_interval task_data.state 0 base = _
    unfold calculate_adaptive_interval
    norm_num

/-- Witness for C3 at a concrete RUNNING task and max_wait 10. -/
theorem wait_minimal_view_consequences_witness :
    ∃ p, wait_for_task_completion "abc" 10 ⟨"id1", "RUNNING"⟩ 99999 5 = .ok p ∧
      p.task_duration_minutes = 0 ∧
      p.task_name = "Unnamed Task" ∧
      p.status ≠ TaskStatus.STILL_RUNNING_TIMEOUT.value ∧
      p.estimated_wait_time = max 2 (Int.fdiv 5 2) :=
  wait_minimal_view_consequences "abc" 10 ⟨"id1", "RUNNING"⟩ 99999 5 (by decide)

/-- C4: duration computation is total (never raises). A missing (None) or
empty creation timestamp yields exactly 0.0; a timestamp ending in Z has the
suffix replaced by the explicit +00:00 UTC offset before parsing; when the
normalized timestamp parses to a time point t the result is (now - t)
seconds divided by 60; and when parsing fails (malformed input, or a naive
timestamp whose subtraction would raise TypeError) the result is exactly 0.0
with no exception reaching the caller. -/
theorem calculate_task_duration_spec (now : ℤ) :
    (calculate_task_duration none now = 0) ∧
    (calculate_task_duration (some "") now = 0) ∧
    (∀ s, s ≠ "" → ∀ t, fromisoformatUTC (normalizeZ s) = some t →
      calculate_task_duration (some s) now = ((now : ℚ) - (t : ℚ)) / 60) ∧
    (∀ s, s ≠ "" → fromisoformatUTC (normalizeZ s) = none →
      calculate_task_duration (some s) now = 0) ∧
    (∀ s, endsWithZ s = true → normalizeZ s = dropLastChar s ++ "+00:00") := by
  refine ⟨rfl, rfl, ?_, ?_, ?_⟩
  · intro s hs t ht
    simp only [calculate_task_duration]
    rw [if_neg hs, ht]
  · intro s hs ht
    simp only [calculate_task_duration]
    rw [if_neg hs, ht]
  · intro s hz
    unfold normalizeZ
    rw [if_pos hz]

/-- Witness for C4: a timestamp ten minutes before now yields 10.0 and a
malformed timestamp yields 0.0 (now is 2024-01-01T00:10:00Z as an absolute
second count). -/
theorem calculate_task_duration_spec_witness :
    calculate_task_duration (some "2024-01-01T00:00:00Z") 63839751000 = 10 ∧
    calculate_task_duration (some "not-a-date") 63839751000 = 0 := by
  constructor
  · have h := (calculate_task_duration_spec 63839751000).2.2.1
      "2024-01-01T00:00:00Z" (by decide) 63839750400 (by decide)
    rw [h]
    norm_num
  · exact (calculate_task_duration_spec 63839751000).2.2.2.1 "not-a-date"
      (by decide) (by decide)

/-- One-step unfolding of splitSlash on a cons. -/
theorem splitSlash_cons (c : Char) (rest : List Char) :
    splitSlash (c :: rest)
      = if c = '/' then [] :: splitSlash rest
        else match splitSlash rest with
          | [] => [[c]]
          | g :: gs => (c :: g) :: gs := rfl

/-- normStep keeps any component other than the double dot. -/
theorem normStep_keep (st : List (List Char)) (c : List Char)
    (hc : c ≠ ['.', '.']) : normStep st c = st ++ [c] := by
  unfold normStep
  rw [if_neg hc]

/-- splitSlash always produces at least one group. -/
theorem splitSlash_ne_nil (l : List Char) : splitSlash l ≠ [] := by
  induction l with
  | nil => simp [splitSlash]
  | cons c rest ih =>
    unfold splitSlash
    split_ifs
    · simp
    · cases h : splitSlash rest with
      | nil => simp
      | cons g gs => simp

/-- No group produced by splitSlash contains a slash. -/
theorem mem_splitSlash_no_slash (l : List Char) :
    ∀ g ∈ splitSlash l, '/' ∉ g := by
  induction l with
  | nil =>
    intro g hg
    simp only [splitSlash, List.mem_singleton] at hg
    subst hg
    simp
  | cons c rest ih =>
    intro g hg
    unfold splitSlash at hg
    by_cases hc : c = '/'
    · rw [if_pos hc] at hg
      rcases List.mem_cons.mp hg with h | h
      · subst h; simp
      · exact ih g h
    · rw [if_neg hc] at hg
      cases h : splitSlash rest with
      | nil => exact absurd h (splitSlash_ne_nil rest)
      | cons g0 gs =>
        rw [h] at hg
        rcases List.mem_cons.mp hg with h1 | h1
        · subst h1
          intro hmem
          rcases List.mem_cons.mp hmem with h2 | h2
          · exact hc h2.symm
          · exact ih g0 (h ▸ List.mem_cons_self g0 gs) h2
        · exact ih g (h ▸ List.mem_cons_of_mem g0 h1)

/-- Splitting a slash-free chunk followed by a slash peels off the chunk. -/
theorem splitSlash_append_slash (c t : List Char) (hc : '/' ∉ c) :
    splitSlash (c ++ '/' :: t) = c :: splitSlash t := by
  induction c with
  | nil =>
    show splitSlash ('/' :: t) = [] :: splitSlash t
    rw [splitSlash_cons, if_pos rfl]
  | cons ch c' ih =>
    have hch : ch ≠ '/' := fun h => hc (h ▸ List.mem_cons_self ch c')
    have hc' : '/' ∉ c' := fun h => hc (List.mem_cons_of_mem ch h)
    show splitSlash (ch :: (c' ++ '/' :: t)) = (ch :: c') :: splitSlash t
    rw [splitSlash_cons, if_neg hch, ih hc']

/-- Splitting a slash-free list yields that single group. -/
theorem splitSlash_no_slash (c : List Char) (hc : '/' ∉ c) :
    splitSlash c = [c] := by
  induction c with
  | nil => rfl
  | cons ch c' ih =>
    have hch : ch ≠ '/' := fun h => hc (h ▸ List.mem_cons_self ch c')
    have hc' : '/' ∉ c' := fun h => hc (List.mem_cons_of_mem ch h)
    unfold splitSlash
    rw [if_neg hch, ih hc']

/-- splitSlash is a left inverse of joinSlash on non-empty lists of
slash-free groups. -/
theorem splitSlash_joinSlash (gs : List (List Char)) (hne : gs ≠ [])
    (h : ∀ g ∈ gs, '/' ∉ g) : splitSlash (joinSlash gs) = gs := by
  induction gs with
  | nil => exact absurd rfl hne
  | cons g rest ih =>
    cases rest with
    | nil =>
      show splitSlash g = [g]
      exact splitSlash_no_slash g (h g (List.mem_cons_self g []))
    | cons x xs =>
      show splitSlash (g ++ '/' :: joinSlash (x :: xs)) = g :: x :: xs
      rw [splitSlash_append_slash g _ (h g (List.mem_cons_self g (x :: xs)))]
      rw [ih (by simp) (fun g0 hg0 => h g0 (List.mem_cons_of_mem g hg0))]

/-- Folding the normpath step over components free of double dots just
appends them all. -/
theorem foldl_normStep_no_dotdot (l acc : List (List Char))
    (h : ∀ c ∈ l, c ≠ ['.', '.']) :
    l.foldl normStep acc = acc ++ l := by
  induction l generalizing acc with
  | nil => simp
  | cons c rest ih =>
    have hc : c ≠ ['.', '.'] := h c (List.mem_cons_self c rest)
    simp only [List.foldl_cons]
    rw [normStep_keep acc c hc,
      ih (acc ++ [c]) (fun x hx => h x (List.mem_cons_of_mem c hx))]
    simp

/-- The normpath component stack only ever holds well-formed components and
never a double dot. -/
theorem foldl_normStep_invariant (l : List (List Char)) :
    ∀ acc : List (List Char), (∀ c ∈ l, CompOK c) →
    (∀ c ∈ acc, CompOK c ∧ c ≠ ['.', '.']) →
    ∀ c ∈ l.foldl normStep acc, CompOK c ∧ c ≠ ['.', '.'] := by
  induction l with
  | nil => exact fun acc _ hacc c hc => hacc c hc
  | cons x rest ih =>
    intro acc hl hacc
    simp only [List.foldl_cons]
    apply ih (normStep acc x) (fun c hc => hl c (List.mem_cons_of_mem x hc))
    intro c hc
    unfold normStep at hc
    split_ifs at hc with hx
    · exact hacc c ((List.dropLast_prefix acc).subset hc)
    · rcases List.mem_append.mp hc with h | h
      · exact hacc c h
      · rw [List.mem_singleton] at h
        subst h
        exact ⟨hl c (List.mem_cons_self c rest), hx⟩

/-- Every component a path string contributes is well-formed. -/
theorem pathComponents_ok (s : String) : ∀ c ∈ pathComponents s, CompOK c := by
  intro c hc
  unfold pathComponents at hc
  have h1 := List.of_mem_filter hc
  have h2 := List.mem_of_mem_filter hc
  simp only [Bool.and_eq_true, Bool.not_eq_true', beq_eq_false_iff_ne, ne_eq] at h1
  exact ⟨h1.1, h1.2, mem_splitSlash_no_slash _ c h2⟩

/-- The stack normpath builds from any path is made of well-formed,
double-dot-free components. -/
theorem normStack_ok (s : String) :
    ∀ c ∈ (pathComponents s).foldl normStep [], CompOK c ∧ c ≠ ['.', '.'] :=
  foldl_normStep_invariant _ [] (pathComponents_ok s) (by simp)

/-- A component list that starts with a well-formed component joins to a
character list starting with that component head character. -/
theorem joinSlash_cons_cons (ch : Char) (c0 : List Char)
    (rest : List (List Char)) :
    ∃ t, joinSlash ((ch :: c0) :: rest) = ch :: t := by
  cases rest with
  | nil => exact ⟨c0, rfl⟩
  | cons x xs => exact ⟨c0 ++ '/' :: joinSlash (x :: xs), rfl⟩

/-- Reading the components back from a rebuilt absolute path recovers them. -/
theorem pathComponents_buildAbs (d : Bool) (comps : List (List Char))
    (h : ∀ c ∈ comps, CompOK c) :
    pathComponents (buildAbs d comps) = comps := by
  have hfilter : comps.filter (fun c => !(c == []) && !(c == ['.'])) = comps := by
    apply List.filter_eq_self.mpr
    intro c hc
    obtain ⟨h1, h2, _⟩ := h c hc
    simp [h1, h2]
  unfold buildAbs pathComponents
  by_cases hc : comps = []
  · subst hc
    cases d <;> rfl
  · rw [if_neg hc]
    have hns : ∀ g ∈ comps, '/' ∉ g := fun g hg => (h g hg).2.2
    cases d with
    | false =>
      show ((splitSlash (('/' :: joinSlash comps))).filter _) = comps
      rw [splitSlash_cons, if_pos rfl, splitSlash_joinSlash comps hc hns]
      simpa [List.filter] using hfilter
    | true =>
      show ((splitSlash (('/' :: '/' :: joinSlash comps))).filter _) = comps
      rw [splitSlash_cons, if_pos rfl, splitSlash_cons, if_pos rfl,
        splitSlash_joinSlash comps hc hns]
      simpa [List.filter] using hfilter

/-- A rebuilt absolute path keeps its double-slash-root flag. -/
theorem doubleSlashRoot_buildAbs (d : Bool) (comps : List (List Char))
    (h : ∀ c ∈ comps, CompOK c) :
    doubleSlashRoot (buildAbs d comps) = d := by
  cases comps with
  | nil => cases d <;> rfl
  | cons c0 rest =>
    obtain ⟨h1, -, h3⟩ := h c0 (List.mem_cons_self c0 rest)
    cases c0 with
    | nil => exact absurd rfl h1
    | cons ch c0' =>
      have hch : (ch == '/') = false := by
        rw [beq_eq_false_iff_ne]
        intro hcontra
        exact h3 (hcontra ▸ List.mem_cons_self ch c0')
      obtain ⟨t, ht⟩ := joinSlash_cons_cons ch c0' rest
      unfold buildAbs
      rw [if_neg (by simp : ¬((ch :: c0') :: rest = []))]
      cases d with
      | false =>
        show doubleSlashRoot
          (String.mk (['/'] ++ joinSlash ((ch :: c0') :: rest))) = false
        rw [ht]
        show doubleSlashRoot (String.mk ('/' :: ch :: t)) = false
        unfold doubleSlashRoot
        simp [hch]
      | true =>
        show doubleSlashRoot
          (String.mk (['/', '/'] ++ joinSlash ((ch :: c0') :: rest))) = true
        rw [ht]
        show doubleSlashRoot (String.mk ('/' :: '/' :: ch :: t)) = true
        unfold doubleSlashRoot
        simp [hch]

/-- A rebuilt absolute path starts with a slash. -/
theorem startsWithSlash_buildAbs (d : Bool) (comps : List (List Char)) :
    startsWithSlash (buildAbs d comps) = true := by
  unfold buildAbs startsWithSlash
  by_cases hc : comps = []
  · rw [if_pos hc]
    cases d <;> rfl
  · rw [if_neg hc]
    cases d <;> rfl

/-- The pathlib constructor leaves a rebuilt absolute path unchanged. -/
theorem posixPathStr_buildAbs (d : Bool) (comps : List (List Char))
    (h : ∀ c ∈ comps, CompOK c) :
    posixPathStr (buildAbs d comps) = buildAbs d comps := by
  unfold posixPathStr
  rw [pathComponents_buildAbs d comps h, doubleSlashRoot_buildAbs d comps h]

/-- The pathlib constructor leaves normpath output unchanged. -/
theorem posixPathStr_normpath (s : String) :
    posixPathStr (normpath s) = normpath s := by
  unfold normpath
  exact posixPathStr_buildAbs _ _ (fun c hc => (normStack_ok s c hc).1)

/-- normpath leaves a rebuilt path with double-dot-free components unchanged. -/
theorem normpath_buildAbs (d : Bool) (comps : List (List Char))
    (h : ∀ c ∈ comps, CompOK c ∧ c ≠ ['.', '.']) :
    normpath (buildAbs d comps) = buildAbs d comps := by
  unfold normpath
  rw [pathComponents_buildAbs d comps (fun c hc => (h c hc).1),
      doubleSlashRoot_buildAbs d comps (fun c hc => (h c hc).1),
      foldl_normStep_no_dotdot comps [] (fun c hc => (h c hc).2)]
  simp

/-- normpath is idempotent. -/
theorem normpath_normpath (s : String) : normpath (normpath s) = normpath s := by
  have h : normpath s
      = buildAbs (doubleSlashRoot s) ((pathComponents s).foldl normStep []) := rfl
  rw [h, normpath_buildAbs _ _ (normStack_ok s)]

/-- normpath output starts with a slash. -/
theorem startsWithSlash_normpath (s : String) :
    startsWithSlash (normpath s) = true := by
  unfold normpath
  exact startsWithSlash_buildAbs _ _

/-- Whatever validate_path accepts carries the GoodOutput path invariant. -/
theorem validate_path_good (p q : String) (h : validate_path p = .ok q) :
    startsWithSlash q = true ∧ posixPathStr q = q ∧ normpath q = q ∧
      3 ≤ posixPathPartsCount q := by
  simp only [validate_path] at h
  split_ifs at h with h1 h2
  injection h with h
  subst h
  exact ⟨startsWithSlash_normpath p, posixPathStr_normpath p,
    normpath_normpath p, by omega⟩

/-- The path serializer leaves a path fixed that is absolute and already in
pathlib normal form. -/
theorem pathAbsoluteStr_fixed (cwd p : String) (h1 : startsWithSlash p = true)
    (h2 : posixPathStr p = p) : pathAbsoluteStr cwd p = p := by
  unfold pathAbsoluteStr
  rw [h1]
  simpa using h2

/-- Re-running the path validator on an already validated path accepts it
unchanged. -/
theorem validate_path_fixed (p : String) (h1 : startsWithSlash p = true)
    (h3 : normpath p = p) (h4 : 3 ≤ posixPathPartsCount p) :
    validate_path p = .ok p := by
  unfold validate_path
  rw [h1]
  simp only [Bool.not_true, Bool.false_eq_true, if_false, h3]
  rw [if_neg (by omega)]

/-- Parsing the serialized value of a file type recovers it. -/
theorem fileType_parse_value (ft : TesFileType) :
    TesFileType.parse ft.value = some ft := by
  cases ft <;> rfl

/-- Parsing the serialized value of a task state recovers it. -/
theorem tesState_parse_value (st : TesState) :
    TesState.parse st.value = some st := by
  cases st <;> rfl

/-- Validating the serialized value of a populated file-type field recovers
it. -/
theorem parseFileTypeField_value (ft : TesFileType) :
    parseFileTypeField (some ft.value) = .ok (some ft) := by
  cases ft <;> rfl

/-- Validating the serialized value of a populated state field recovers it. -/
theorem parseStateField_value (st : TesState) :
    parseStateField (some st.value) = .ok (some st) := by
  cases st <;> rfl

/-- A dumped input parses back to itself when its type is populated and its
path is absolute and in pathlib normal form. -/
theorem parseInput_dumpInput (cwd : String) (i : TesInput)
    (hty : (TesInput.type i).isSome = true)
    (h1 : startsWithSlash i.path = true) (h2 : posixPathStr i.path = i.path) :
    parseInput (dumpInput cwd i) = .ok i := by
  obtain ⟨ft, hft⟩ := Option.isSome_iff_exists.mp hty
  cases i with
  | mk name description url path ty content streamable =>
    simp only [TesInput.type] at hft
    subst hft
    simp only [TesInput.path] at h1 h2
    unfold dumpInput parseInput
    simp only [Option.map_some']
    rw [parseFileTypeField_value, pathAbsoluteStr_fixed cwd path h1 h2]
    rfl

/-- A dumped output parses back to itself when its type is populated and its
path carries the validator invariant. -/
theorem parseOutput_dumpOutput (cwd : String) (o : TesOutput)
    (hty : (TesOutput.type o).isSome = true) (hg : GoodOutput o) :
    parseOutput (dumpOutput cwd o) = .ok o := by
  obtain ⟨ft, hft⟩ := Option.isSome_iff_exists.mp hty
  obtain ⟨hg1, hg2, hg3, hg4⟩ := hg
  cases o with
  | mk name description url path pathPrefix ty =>
    simp only [TesOutput.type] at hft
    subst hft
    simp only [TesOutput.path] at hg1 hg2 hg3 hg4
    unfold dumpOutput parseOutput
    simp only [Option.map_some']
    rw [parseFileTypeField_value, pathAbsoluteStr_fixed cwd path hg1 hg2,
      validate_path_fixed path hg1 hg3 hg4]
    rfl

/-- Mapping parse over a dumped input list recovers the list elementwise. -/
theorem mapM_parseInput_dump (cwd : String) (l : List TesInput)
    (h : ∀ i ∈ l, (TesInput.type i).isSome = true ∧
      startsWithSlash i.path = true ∧ posixPathStr i.path = i.path) :
    (l.map (dumpInput cwd)).mapM parseInput = .ok l := by
  induction l with
  | nil => rfl
  | cons i rest ih =>
    obtain ⟨hty, h1, h2⟩ := h i (List.mem_cons_self i rest)
    simp only [List.map_cons, List.mapM_cons]
    rw [parseInput_dumpInput cwd i hty h1 h2,
      ih (fun x hx => h x (List.mem_cons_of_mem i hx))]
    rfl

/-- Mapping parse over a dumped output list recovers the list elementwise. -/
theorem mapM_parseOutput_dump (cwd : String) (l : List TesOutput)
    (h : ∀ o ∈ l, (TesOutput.type o).isSome = true ∧ GoodOutput o) :
    (l.map (dumpOutput cwd)).mapM parseOutput = .ok l := by
  induction l with
  | nil => rfl
  | cons o rest ih =>
    obtain ⟨hty, hg⟩ := h o (List.mem_cons_self o rest)
    simp only [List.map_cons, List.mapM_cons]
    rw [parseOutput_dumpOutput cwd o hty hg,
      ih (fun x hx => h x (List.mem_cons_of_mem o hx))]
    rfl

/-- The file-type field validator always yields a populated option. -/
theorem parseFileTypeField_isSome (x : Option String) (ty : Option TesFileType)
    (h : parseFileTypeField x = .ok ty) : ty.isSome = true := by
  cases x with
  | none =>
    injection h with h
    subst h
    rfl
  | some s =>
    simp only [parseFileTypeField] at h
    cases hp : TesFileType.parse s with
    | none => rw [hp] at h; cases h
    | some ft =>
      rw [hp] at h
      injection h with h
      subst h
      rfl

/-- The state field validator always yields a populated option. -/
theorem parseStateField_isSome (x : Option String) (st : Option TesState)
    (h : parseStateField x = .ok st) : st.isSome = true := by
  cases x with
  | none =>
    injection h with h
    subst h
    rfl
  | some s =>
    simp only [parseStateField] at h
    cases hp : TesState.parse s with
    | none => rw [hp] at h; cases h
    | some v =>
      rw [hp] at h
      injection h with h
      subst h
      rfl

/-- Every input parseInput accepts has a populated type field. -/
theorem parseInput_good (w : TesInputWire) (i : TesInput)
    (h : parseInput w = .ok i) : (TesInput.type i).isSome = true := by
  unfold parseInput at h
  cases hty : parseFileTypeField w.type with
  | error e => rw [hty] at h; cases h
  | ok ty =>
    rw [hty] at h
    injection h with h
    subst h
    exact parseFileTypeField_isSome w.type ty hty

/-- Every output parseOutput accepts has a populated type field and the
validator path invariant. -/
theorem parseOutput_good (w : TesOutputWire) (o : TesOutput)
    (h : parseOutput w = .ok o) :
    (TesOutput.type o).isSome = true ∧ GoodOutput o := by
  unfold parseOutput at h
  cases hty : parseFileTypeField w.type with
  | error e => rw [hty] at h; cases h
  | ok ty =>
    rw [hty] at h
    cases hp : validate_path w.path with
    | error e => rw [hp] at h; cases h
    | ok p =>
      rw [hp] at h
      injection h with h
      subst h
      exact ⟨parseFileTypeField_isSome w.type ty hty,
        validate_path_good w.path p hp⟩

/-- Every element of a successfully mapped parseInput batch has a populated
type field. -/
theorem mapM_parseInput_good (l : List TesInputWire) (l' : List TesInput)
    (h : l.mapM parseInput = .ok l') :
    ∀ i ∈ l', (TesInput.type i).isSome = true := by
  induction l generalizing l' with
  | nil =>
    injection h with h
    subst h
    intro i hi
    cases hi
  | cons w rest ih =>
    rw [List.mapM_cons] at h
    cases hw : parseInput w with
    | error e => rw [hw] at h; cases h
    | ok i0 =>
      rw [hw] at h
      cases hr : rest.mapM parseInput with
      | error e => rw [hr] at h; cases h
      | ok rest' =>
        rw [hr] at h
        injection h with h
        subst h
        intro i hi
        rcases List.mem_cons.mp hi with h1 | h1
        · subst h1
          exact parseInput_good w i hw
        · exact ih rest' hr i h1

/-- Every element of a successfully mapped parseOutput batch has a populated
type field and the validator path invariant. -/
theorem mapM_parseOutput_good (l : List TesOutputWire) (l' : List TesOutput)
    (h : l.mapM parseOutput = .ok l') :
    ∀ o ∈ l', (TesOutput.type o).isSome = true ∧ GoodOutput o := by
  induction l generalizing l' with
  | nil =>
    injection h with h
    subst h
    intro o ho
    cases ho
  | cons w rest ih =>
    rw [List.mapM_cons] at h
    cases hw : parseOutput w with
    | error e => rw [hw] at h; cases h
    | ok o0 =>
      rw [hw] at h
      cases hr : rest.mapM parseOutput with
      | error e => rw [hr] at h; cases h
      | ok rest' =>
        rw [hr] at h
        injection h with h
        subst h
        intro o ho
        rcases List.mem_cons.mp ho with h1 | h1
        · subst h1
          exact parseOutput_good w o hw
        · exact ih rest' hr o h1

/-- Re-validating already-validated resources changes nothing. -/
theorem parseResources_fixed (r : TesResources)
    (h : r.backend_parameters_strict.isSome = true) : parseResources r = r := by
  obtain ⟨b, hb⟩ := Option.isSome_iff_exists.mp h
  cases r
  simp only [TesResources.backend_parameters_strict] at hb
  subst hb
  rfl

/-- Re-validating an already-validated executor log changes nothing. -/
theorem parseExecutorLog_fixed (nowStr : String) (el : TesExecutorLog)
    (h : el.start_time.isSome = true) : parseExecutorLog nowStr el = el := by
  obtain ⟨s, hs⟩ := Option.isSome_iff_exists.mp h
  cases el
  simp only [TesExecutorLog.start_time] at hs
  subst hs
  rfl

/-- Re-validating a batch of already-validated executor logs changes
nothing. -/
theorem map_parseExecutorLog_fixed (nowStr : String) (l : List TesExecutorLog)
    (h : ∀ el ∈ l, el.start_time.isSome = true) :
    l.map (parseExecutorLog nowStr) = l := by
  induction l with
  | nil => rfl
  | cons el rest ih =>
    rw [List.map_cons,
      parseExecutorLog_fixed nowStr el (h el (List.mem_cons_self el rest)),
      ih (fun x hx => h x (List.mem_cons_of_mem el hx))]

/-- Re-validating an already-validated task log changes nothing. -/
theorem parseTaskLog_fixed (nowStr : String) (lg : TesTaskLog)
    (h1 : lg.start_time.isSome = true)
    (h2 : ∀ el ∈ TesTaskLog.logs lg, el.start_time.isSome = true) :
    parseTaskLog nowStr lg = lg := by
  obtain ⟨s, hs⟩ := Option.isSome_iff_exists.mp h1
  cases lg with
  | mk logs metadata start_time end_time outputs system_logs =>
    simp only [TesTaskLog.start_time] at hs
    simp only [TesTaskLog.logs] at h2
    subst hs
    unfold parseTaskLog
    simp only [TesTaskLog.mk.injEq, Option.getD_some, and_true, true_and]
    exact map_parseExecutorLog_fixed nowStr logs h2

/-- A parsed inputs field only holds inputs with populated type fields. -/
theorem parseInputsField_good (x : Option (List TesInputWire))
    (ins : Option (List TesInput)) (h : parseInputsField x = .ok ins) :
    ∀ l, ins = some l → ∀ i ∈ l, (TesInput.type i).isSome = true := by
  cases x with
  | none =>
    injection h with h
    subst h
    intro l hl
    cases hl
  | some lw =>
    simp only [parseInputsField] at h
    cases hm : lw.mapM parseInput with
    | error e => rw [hm] at h; cases h
    | ok parsed =>
      rw [hm] at h
      injection h with h
      subst h
      intro l hl
      injection hl with hl
      subst hl
      exact mapM_parseInput_good lw parsed hm

/-- A parsed outputs field only holds outputs with populated type fields and
the validator path invariant. -/
theorem parseOutputsField_good (x : Option (List TesOutputWire))
    (outs : Option (List TesOutput)) (h : parseOutputsField x = .ok outs) :
    ∀ l, outs = some l →
      ∀ o ∈ l, (TesOutput.type o).isSome = true ∧ GoodOutput o := by
  cases x with
  | none =>
    injection h with h
    subst h
    intro l hl
    cases hl
  | some lw =>
    simp only [parseOutputsField] at h
    cases hm : lw.mapM parseOutput with
    | error e => rw [hm] at h; cases h
    | ok parsed =>
      rw [hm] at h
      injection h with h
      subst h
      intro l hl
      injection hl with hl
      subst hl
      exact mapM_parseOutput_good lw parsed hm

/-- The parsed inputs field invariant, in the shape GoodTask uses. -/
theorem parseInputsField_good_match (x : Option (List TesInputWire))
    (ins : Option (List TesInput)) (h : parseInputsField x = .ok ins) :
    InputsTyped ins := by
  cases ins with
  | none => trivial
  | some l =>
    show ∀ i ∈ l, (TesInput.type i).isSome = true
    exact parseInputsField_good x (some l) h l rfl

/-- The parsed outputs field invariant, in the shape GoodTask uses. -/
theorem parseOutputsField_good_match (x : Option (List TesOutputWire))
    (outs : Option (List TesOutput)) (h : parseOutputsField x = .ok outs) :
    OutputsGood outs := by
  cases outs with
  | none => trivial
  | some l =>
    show ∀ o ∈ l, (TesOutput.type o).isSome = true ∧ GoodOutput o
    exact parseOutputsField_good x (some l) h l rfl

/-- The resources validator always leaves the field invariant behind. -/
theorem resourcesGood_map (x : Option TesResources) :
    ResourcesGood (Option.map parseResources x) := by
  cases x with
  | none => trivial
  | some r => rfl

/-- The logs validator always leaves the field invariant behind. -/
theorem logsGood_map (nowStr : String) (x : Option (List TesTaskLog)) :
    LogsGood (Option.map (List.map (parseTaskLog nowStr)) x) := by
  cases x with
  | none => trivial
  | some ls =>
    simp only [Option.map_some']
    show ∀ lg ∈ ls.map (parseTaskLog nowStr), lg.start_time.isSome = true ∧
      ∀ el ∈ TesTaskLog.logs lg, el.start_time.isSome = true
    intro lg hlg
    obtain ⟨lg0, -, hlg0⟩ := List.mem_map.mp hlg
    subst hlg0
    refine ⟨rfl, ?_⟩
    intro el hel
    simp only [parseTaskLog, TesTaskLog.logs] at hel
    obtain ⟨el0, -, hel0⟩ := List.mem_map.mp hel
    subst hel0
    rfl

/-- Every task parseTask accepts satisfies the GoodTask field invariants. -/
theorem parseTask_good (nowStr : String) (w : TesTaskWire) (t : TesTask)
    (h : parseTask nowStr w = .ok t) : GoodTask t := by
  unfold parseTask at h
  split at h
  case _ st ins outs hst hins houts =>
    injection h with h
    subst h
    exact ⟨parseStateField_isSome w.state st hst,
      parseInputsField_good_match w.inputs ins hins,
      parseOutputsField_good_match w.outputs outs houts,
      resourcesGood_map w.resources, logsGood_map nowStr w.logs, rfl⟩
  case _ => cases h
  case _ => cases h
  case _ => cases h

/-- Dumping and re-validating the inputs field is the identity when every
present input has a populated type and a normalized absolute path. -/
theorem parseInputsField_dump (cwd : String) (x : Option (List TesInput))
    (hty : InputsTyped x) (hp : InputsNorm x) :
    parseInputsField (Option.map (List.map (dumpInput cwd)) x) = .ok x := by
  cases x with
  | none => rfl
  | some l =>
    have hty' : ∀ i ∈ l, (TesInput.type i).isSome = true := hty
    have hp' : ∀ i ∈ l,
      startsWithSlash i.path = true ∧ posixPathStr i.path = i.path := hp
    simp only [Option.map_some']
    simp only [parseInputsField]
    rw [mapM_parseInput_dump cwd l (fun i hi =>
      ⟨hty' i hi, (hp' i hi).1, (hp' i hi).2⟩)]

/-- Dumping and re-validating the outputs field is the identity when every
present output has a populated type and the validator path invariant. -/
theorem parseOutputsField_dump (cwd : String) (x : Option (List TesOutput))
    (h : OutputsGood x) :
    parseOutputsField (Option.map (List.map (dumpOutput cwd)) x) = .ok x := by
  cases x with
  | none => rfl
  | some l =>
    have h' : ∀ o ∈ l, (TesOutput.type o).isSome = true ∧ GoodOutput o := h
    simp only [Option.map_some']
    simp only [parseOutputsField]
    rw [mapM_parseOutput_dump cwd l h']

/-- Re-validating already validated resources through the optional field is
the identity. -/
theorem mapOpt_parseResources (x : Option TesResources)
    (h : ResourcesGood x) : Option.map parseResources x = x := by
  cases x with
  | none => rfl
  | some r =>
    have h' : r.backend_parameters_strict.isSome = true := h
    simp only [Option.map_some']
    rw [parseResources_fixed r h']

/-- Re-validating a batch of already validated task logs is the identity. -/
theorem map_parseTaskLog_fixed (nowStr : String) (ls : List TesTaskLog)
    (h : ∀ lg ∈ ls, lg.start_time.isSome = true ∧
      ∀ el ∈ TesTaskLog.logs lg, el.start_time.isSome = true) :
    ls.map (parseTaskLog nowStr) = ls := by
  induction ls with
  | nil => rfl
  | cons lg rest ih =>
    obtain ⟨h1, h2⟩ := h lg (List.mem_cons_self lg rest)
    rw [List.map_cons, parseTaskLog_fixed nowStr lg h1 h2,
      ih (fun x hx => h x (List.mem_cons_of_mem lg hx))]

/-- Re-validating already validated logs through the optional field is the
identity. -/
theorem mapOpt_parseTaskLog (nowStr : String) (x : Option (List TesTaskLog))
    (h : LogsGood x) :
    Option.map (List.map (parseTaskLog nowStr)) x = x := by
  cases x with
  | none => rfl
  | some ls =>
    have h' : ∀ lg ∈ ls, lg.start_time.isSome = true ∧
      ∀ el ∈ TesTaskLog.logs lg, el.start_time.isSome = true := h
    simp only [Option.map_some']
    rw [map_parseTaskLog_fixed nowStr ls h']

/-- Serializing a task with the field serializers and validating it back is
the identity on any task with the parse-image invariants and normalized
absolute input paths. -/
theorem parseTask_dumpTask (t : TesTask) (hg : GoodTask t)
    (hn : InputsNormalized t) (cwd nowStr : String) :
    parseTask nowStr (dumpTask cwd t) = .ok t := by
  obtain ⟨hst, hins, houts, hres, hlogs, hct⟩ := hg
  obtain ⟨st, hst'⟩ := Option.isSome_iff_exists.mp hst
  obtain ⟨ct, hct'⟩ := Option.isSome_iff_exists.mp hct
  unfold dumpTask parseTask
  rw [hst']
  simp only [Option.map_some']
  rw [parseStateField_value,
    parseInputsField_dump cwd t.inputs hins hn,
    parseOutputsField_dump cwd t.outputs houts]
  rw [hct']
  simp only [Option.getD_some]
  rw [mapOpt_parseResources t.resources hres,
    mapOpt_parseTaskLog nowStr t.logs hlogs]
  rw [← hst', ← hct']

/-- C9 counterexample: a valid (parsed) task whose populated inputs field
holds the absolute but non-normalized path /data//file1 round-trips through
model dump and re-validation to a task whose inputs differ (the path
serializer collapses the doubled slash to /data/file1), so the round trip is
not the identity on all populated optional fields. -/
theorem tesTask_roundtrip_counterexample :
    parseTask "T0" exampleWireTaskDoubled = .ok exampleTaskDoubled ∧
    parseTask "T1" (dumpTask "/w" exampleTaskDoubled) = .ok exampleTaskDoubledRT ∧
    TesTask.inputs exampleTaskDoubled
      = some [{ path := "/data//file1", type := some .FILE }] ∧
    TesTask.inputs exampleTaskDoubledRT ≠ TesTask.inputs exampleTaskDoubled :=
  ⟨rfl, rfl, rfl, by decide⟩

/-- C9 amended: for every task obtained by parsing a wire value, one
serialize-and-parse round trip succeeds and is the identity on the whole
task (hence on every populated optional field) provided each input path is
already an absolute path in the normal form the path serializer produces;
without that proviso the serializer may rewrite input paths (TesInput has no
path validator), as the counterexample shows. -/
theorem tesTask_roundtrip_on_normalized (w : TesTaskWire)
    (nowStr nowStr2 cwd : String) (t : TesTask)
    (h : parseTask nowStr w = .ok t) (hn : InputsNormalized t) :
    parseTask nowStr2 (dumpTask cwd t) = .ok t :=
  parseTask_dumpTask t (parseTask_good nowStr w t h) hn cwd nowStr2

/-- Witness for C9 at a concrete parsed task with normalized input paths. -/
theorem tesTask_roundtrip_on_normalized_witness :
    parseTask "T1" (dumpTask "/w" exampleTaskNormal) = .ok exampleTaskNormal :=
  tesTask_roundtrip_on_normalized exampleWireTaskNormal "T0" "T1" "/w"
    exampleTaskNormal rfl
    (by intro i hi; rw [List.mem_singleton] at hi; subst hi; exact ⟨rfl, rfl⟩)

end PoiesisMcp
